import Mathlib

/-!
Shallow embedding of the `reliable-queue` library core
(`packages/reliable-queue/src/ReliableQueue.ts` and
`packages/reliable-queue/src/utils.ts`).

JS numbers are modelled as `Int` (all quantities handled by the engine are
integer timestamps, counts and millisecond delays), JS `undefined`-able fields
as `Option`, and the in-memory task array as a `List`.  The asynchronous
dispatch loop is modelled as a step relation: each atomic run of synchronous
engine code between suspension points (the cooperative single-threaded model
of the library) is one step.  `localStorage` persistence and event emission
have no effect on engine state and are not modelled.
-/

set_option autoImplicit false

namespace ReliableQueue

/-- TaskStatus from `types.ts`: PENDING | PROCESSING | COMPLETED | FAILED. -/
inductive TaskStatus where
  | pending
  | processing
  | completed
  | failed
deriving DecidableEq, Repr

/-- QueuedTask from `types.ts`.  `data` is the caller payload of generic
type `α`; `retryCount`, timestamps and `priority` are JS numbers (`Int`);
optional fields are `Option`. -/
structure Task (α : Type) where
  id : String
  data : α
  status : TaskStatus
  retryCount : Int
  createdAt : Int
  updatedAt : Int
  error : Option String
  priority : Int
  delay : Option Int
  processAt : Option Int
deriving DecidableEq, Repr

/-- Required QueueConfig (after merging with `DEFAULT_CONFIG`).
`persistent`/`storageKey` only drive the browser storage adapter, which has
no effect on in-memory engine state; they are carried for completeness. -/
structure QueueConfig where
  maxRetries : Int
  retryDelay : Int
  exponentialBackoff : Bool
  maxRetryDelay : Int
  concurrency : Int
  persistent : Bool
  storageKey : String
deriving DecidableEq, Repr

/-- QueueConfig as the caller passes it to the constructor: every field
optional (`types.ts`, interface QueueConfig). -/
structure QueueConfigInput where
  maxRetries : Option Int := none
  retryDelay : Option Int := none
  exponentialBackoff : Option Bool := none
  maxRetryDelay : Option Int := none
  concurrency : Option Int := none
  persistent : Option Bool := none
  storageKey : Option String := none
deriving DecidableEq, Repr

/-- Constructor line `this.config = { ...DEFAULT_CONFIG, ...config }`:
object spread, i.e. every absent field falls back to `DEFAULT_CONFIG`
(maxRetries 3, retryDelay 1000, exponentialBackoff true, maxRetryDelay
30000, concurrency 1, persistent false, storageKey "reliable-queue"). -/
def mergeConfig (input : QueueConfigInput) : QueueConfig :=
  { maxRetries := input.maxRetries.getD 3
    retryDelay := input.retryDelay.getD 1000
    exponentialBackoff := input.exponentialBackoff.getD true
    maxRetryDelay := input.maxRetryDelay.getD 30000
    concurrency := input.concurrency.getD 1
    persistent := input.persistent.getD false
    storageKey := input.storageKey.getD "reliable-queue" }

/-- AddTaskOptions from `types.ts`. -/
structure AddTaskOptions where
  priority : Option Int := none
  delay : Option Int := none
  id : Option String := none
deriving DecidableEq, Repr

/-- calculateRetryDelay from `utils.ts`:
`if (!exponentialBackoff) return baseDelay;
 const delay = baseDelay * Math.pow(2, retryCount);
 return Math.min(delay, maxDelay);`
`retryCount` is nonnegative at every call site; `Math.pow (2, n)` for
nonnegative integer `n` is `2 ^ n`. -/
def calculateRetryDelay (retryCount : Int) (baseDelay : Int)
    (exponentialBackoff : Bool) (maxDelay : Int) : Int :=
  if !exponentialBackoff then baseDelay
  else min (baseDelay * 2 ^ retryCount.toNat) maxDelay

/-- In-memory state of a `ReliableQueue` instance: the `tasks` array, the
`processingCount` counter, the merged config and whether a processor has
been installed (`setProcessor`). -/
structure QueueState (α : Type) where
  tasks : List (Task α)
  processingCount : Int
  config : QueueConfig
  hasProcessor : Bool
deriving DecidableEq, Repr

/-- The comparator of `sortTasksByPriority` as a Boolean "may come first"
relation: `taskLE a b` holds iff the JS comparator returns `<= 0` on
`(a, b)` — higher `priority` first, ties by ascending `createdAt`. -/
def taskLE {α : Type} (a b : Task α) : Bool :=
  if a.priority = b.priority then decide (a.createdAt ≤ b.createdAt)
  else decide (b.priority < a.priority)

/-- Insert a task into an already-sorted accumulator, after every element
that may come before it (stable insertion, matching the stable
`Array.prototype.sort`). -/
def insertSorted {α : Type} (t : Task α) : List (Task α) → List (Task α)
  | [] => [t]
  | y :: ys => if taskLE y t then y :: insertSorted t ys else t :: y :: ys

/-- sortTasksByPriority from `ReliableQueue.ts` (lines 297-306): stable sort
by the comparator (priority descending, then createdAt ascending),
modelled as a stable insertion sort. -/
def sortTasksByPriority {α : Type} (ts : List (Task α)) : List (Task α) :=
  ts.foldl (fun acc t => insertSorted t acc) []

/-- Fresh state produced by the constructor (non-persistent path: the task
array starts empty, nothing is processing, no processor installed). -/
def initState (α : Type) (cfg : QueueConfig) : QueueState α :=
  { tasks := [], processingCount := 0, config := cfg, hasProcessor := false }

/-- The constructor (`ReliableQueue.ts` lines 43-50).  Its body merges the
config, initializes subscriber sets and (when persistent, in a browser)
loads stored tasks; it contains no validation and no throw path, so as a
fallible computation it always succeeds. -/
def construct (α : Type) (input : QueueConfigInput) :
    Except String (QueueState α) :=
  Except.ok (initState α (mergeConfig input))

/-- setProcessor (lines 73-75). -/
def setProcessor {α : Type} (s : QueueState α) : QueueState α :=
  { s with hasProcessor := true }

/-- add (lines 80-103).  `now` is `Date.now()` at the call, `genId` the
value `generateId()` would return.  `options.id || generateId()` uses JS
truthiness (the empty string falls through to the generated id);
`options.priority || 0` maps absent (and zero) priority to 0;
`options.delay ? Date.now() + options.delay : undefined` sets `processAt`
only for a truthy (nonzero) delay.  Returns the new task id and state. -/
def add {α : Type} (s : QueueState α) (data : α) (opts : AddTaskOptions)
    (now : Int) (genId : String) : String × QueueState α :=
  let id := match opts.id with
    | some i => if i = "" then genId else i
    | none => genId
  let task : Task α :=
    { id := id
      data := data
      status := TaskStatus.pending
      retryCount := 0
      createdAt := now
      updatedAt := now
      error := none
      priority := (opts.priority.getD 0)
      delay := opts.delay
      processAt := match opts.delay with
        | some d => if d = 0 then none else some (now + d)
        | none => none }
  (id, { s with tasks := sortTasksByPriority (s.tasks ++ [task]) })

/-- Erase the first element satisfying `p` (the `splice(index, 1)` at the
`findIndex` position in `remove`). -/
def eraseFirst {α : Type} (p : Task α → Bool) : List (Task α) → List (Task α)
  | [] => []
  | x :: xs => if p x then xs else x :: eraseFirst p xs

/-- Apply `f` to the first element satisfying `p` (in-place mutation of the
object returned by `find`/`findIndex`). -/
def updateFirst {α : Type} (p : Task α → Bool) (f : Task α → Task α) :
    List (Task α) → List (Task α)
  | [] => []
  | x :: xs => if p x then f x :: xs else x :: updateFirst p f xs

/-- remove (lines 108-124): `findIndex` by id; `false` when absent or when
the found task is PROCESSING; otherwise splice it out and return `true`. -/
def remove {α : Type} (s : QueueState α) (taskId : String) :
    Bool × QueueState α :=
  match s.tasks.find? (fun t => decide (t.id = taskId)) with
  | none => (false, s)
  | some t =>
    if t.status = TaskStatus.processing then (false, s)
    else (true, { s with tasks := eraseFirst (fun u => decide (u.id = taskId)) s.tasks })

/-- The mutation `retry`/`retryAll` perform on a FAILED task: status
PENDING, retryCount 0, error cleared, updatedAt stamped. -/
def retryResetTask {α : Type} (now : Int) (t : Task α) : Task α :=
  { t with status := TaskStatus.pending, retryCount := 0, error := none,
           updatedAt := now }

/-- retry (lines 129-148): `find` by id; `false` unless the found task is
FAILED; otherwise reset it, re-sort and return `true`. -/
def retry {α : Type} (s : QueueState α) (taskId : String) (now : Int) :
    Bool × QueueState α :=
  match s.tasks.find? (fun t => decide (t.id = taskId)) with
  | none => (false, s)
  | some t =>
    if t.status = TaskStatus.failed then
      (true, { s with tasks := (sortTasksByPriority
          (updateFirst (fun u => decide (u.id = taskId)) (retryResetTask now) s.tasks)) })
    else (false, s)

/-- retryAll (lines 153-172): reset every FAILED task, re-sort when at
least one was reset, return how many. -/
def retryAll {α : Type} (s : QueueState α) (now : Int) :
    Nat × QueueState α :=
  let n := (s.tasks.filter (fun t => decide (t.status = TaskStatus.failed))).length
  if n = 0 then (n, s)
  else (n, { s with tasks := (sortTasksByPriority
      (s.tasks.map (fun t => if t.status = TaskStatus.failed then retryResetTask now t else t))) })

/-- clearCompleted (lines 177-187). -/
def clearCompleted {α : Type} (s : QueueState α) : Nat × QueueState α :=
  let n := (s.tasks.filter (fun t => decide (t.status = TaskStatus.completed))).length
  (n, { s with tasks := s.tasks.filter (fun t => !(decide (t.status = TaskStatus.completed))) })

/-- clearFailed (lines 192-202). -/
def clearFailed {α : Type} (s : QueueState α) : Nat × QueueState α :=
  let n := (s.tasks.filter (fun t => decide (t.status = TaskStatus.failed))).length
  (n, { s with tasks := s.tasks.filter (fun t => !(decide (t.status = TaskStatus.failed))) })

/-- clear (lines 207-212): keep only PROCESSING tasks. -/
def clear {α : Type} (s : QueueState α) : QueueState α :=
  { s with tasks := s.tasks.filter (fun t => decide (t.status = TaskStatus.processing)) }

/-- getTasks (lines 217-219): a copy of the task array. -/
def getTasks {α : Type} (s : QueueState α) : List (Task α) :=
  s.tasks

/-- Eligibility test inside getNextTask (lines 331-335):
PENDING, and not (`task.processAt && task.processAt > now`) — the JS `&&`
treats a zero `processAt` as falsy. -/
def isEligible {α : Type} (now : Int) (t : Task α) : Bool :=
  decide (t.status = TaskStatus.pending) &&
    !(match t.processAt with
      | none => false
      | some p => decide (p ≠ 0) && decide (now < p))

/-- getNextTask (lines 328-336): the first task in array order that is
PENDING and past its `processAt`. -/
def getNextTask {α : Type} (s : QueueState α) (now : Int) : Option (Task α) :=
  s.tasks.find? (isEligible now)

/-- One iteration of the `processQueue` loop (lines 311-323) together with
the synchronous head of `processTask` (lines 341-350): when a processor is
installed and `processingCount < concurrency`, the next eligible task is
marked PROCESSING and the counter incremented; otherwise nothing happens. -/
def dispatchStep {α : Type} (s : QueueState α) (now : Int) : QueueState α :=
  if s.hasProcessor && decide (s.processingCount < s.config.concurrency) then
    match getNextTask s now with
    | none => s
    | some _ =>
      { s with
        tasks := updateFirst (isEligible now)
          (fun u => { u with status := TaskStatus.processing, updatedAt := now }) s.tasks
        processingCount := s.processingCount + 1 }
  else s

/-- Apply `f` to the element at index `i` (in-place mutation of the task
object an in-flight processor invocation holds a reference to). -/
def modifyAt {α : Type} (f : Task α → Task α) : Nat → List (Task α) → List (Task α)
  | _, [] => []
  | 0, x :: xs => f x :: xs
  | n + 1, x :: xs => x :: modifyAt f n xs

/-- Success continuation of `processTask` (lines 352-360 plus the `finally`
decrement): the awaited processor resolved for the task at index `i`. -/
def completeStep {α : Type} (s : QueueState α) (i : Nat) (now : Int) : QueueState α :=
  { s with
    tasks := modifyAt (fun t => { t with status := TaskStatus.completed, updatedAt := now }) i s.tasks
    processingCount := s.processingCount - 1 }

/-- handleTaskError (lines 375-407) applied to one task: increment
`retryCount`, record the error; FAILED when `retryCount >= maxRetries`,
otherwise back to PENDING with `processAt = now + calculateRetryDelay`. -/
def failTaskUpdate {α : Type} (cfg : QueueConfig) (now : Int) (msg : String)
    (t : Task α) : Task α :=
  let rc := t.retryCount + 1
  if cfg.maxRetries ≤ rc then
    { t with retryCount := rc, error := some msg, updatedAt := now,
             status := TaskStatus.failed }
  else
    { t with retryCount := rc, error := some msg, updatedAt := now,
             status := TaskStatus.pending,
             processAt := some (now + calculateRetryDelay rc cfg.retryDelay
               cfg.exponentialBackoff cfg.maxRetryDelay) }

/-- Failure continuation of `processTask` (the `catch` branch running
handleTaskError, plus the `finally` decrement) for the task at index `i`,
the processor having rejected with message `msg`. -/
def failStep {α : Type} (s : QueueState α) (i : Nat) (now : Int) (msg : String) :
    QueueState α :=
  { s with
    tasks := modifyAt (failTaskUpdate s.config now msg) i s.tasks
    processingCount := s.processingCount - 1 }

/-- Status of the task at index `i`, used to guard completion/failure
steps. -/
def statusAt {α : Type} (s : QueueState α) (i : Nat) : Option TaskStatus :=
  (s.tasks.get? i).map Task.status

/-- States reachable by some interleaving of API calls and dispatch-loop
continuations, starting from a freshly constructed queue.  Completion and
failure steps require the chosen task to currently be PROCESSING (the
in-flight invocation's task object stays in the array with status
PROCESSING until its own continuation runs; see the preservation lemmas).
Timestamps `now` are arbitrary: no claim here depends on clock
monotonicity. -/
inductive Reachable (α : Type) : QueueState α → Prop where
  | init (input : QueueConfigInput) :
      Reachable α (initState α (mergeConfig input))
  | setProcessor {s : QueueState α} :
      Reachable α s → Reachable α (setProcessor s)
  | add {s : QueueState α} (data : α) (opts : AddTaskOptions) (now : Int) (genId : String) :
      Reachable α s → Reachable α (ReliableQueue.add s data opts now genId).2
  | remove {s : QueueState α} (taskId : String) :
      Reachable α s → Reachable α (ReliableQueue.remove s taskId).2
  | retry {s : QueueState α} (taskId : String) (now : Int) :
      Reachable α s → Reachable α (ReliableQueue.retry s taskId now).2
  | retryAll {s : QueueState α} (now : Int) :
      Reachable α s → Reachable α (ReliableQueue.retryAll s now).2
  | clearCompleted {s : QueueState α} :
      Reachable α s → Reachable α (ReliableQueue.clearCompleted s).2
  | clearFailed {s : QueueState α} :
      Reachable α s → Reachable α (ReliableQueue.clearFailed s).2
  | clear {s : QueueState α} :
      Reachable α s → Reachable α (ReliableQueue.clear s)
  | dispatch {s : QueueState α} (now : Int) :
      Reachable α s → Reachable α (dispatchStep s now)
  | complete {s : QueueState α} (i : Nat) (now : Int) :
      Reachable α s → statusAt s i = some TaskStatus.processing →
      Reachable α (completeStep s i now)
  | fail {s : QueueState α} (i : Nat) (now : Int) (msg : String) :
      Reachable α s → statusAt s i = some TaskStatus.processing →
      Reachable α (failStep s i now msg)

/-- Number of tasks currently in PROCESSING status (the quantity
`getStats().processing` reports). -/
def countProcessing {α : Type} (l : List (Task α)) : Nat :=
  l.countP (fun t => decide (t.status = TaskStatus.processing))

/-- Backoff formula exactly as the spec words it ("If not exponential:
returns `baseDelay` unconditionally. If exponential: returns
`min(baseDelay * 2^attemptCount, maxDelay)`"), for comparison with
`calculateRetryDelay` as translated from `utils.ts`. -/
def specRetryDelay (k : Nat) (baseDelay : Int) (exponential : Bool)
    (maxDelay : Int) : Int :=
  if exponential then min (baseDelay * 2 ^ k) maxDelay else baseDelay

/-- Spec-side notion used by the ordering claim about delayed tasks: the
moment a task's eligibility became satisfied — its scheduled `processAt`
when it has one, otherwise its creation time. -/
def eligibleSince {α : Type} (t : Task α) : Int :=
  match t.processAt with
  | some p => p
  | none => t.createdAt

/-- Freshly constructed queue with the default configuration, payload type
`Nat`; base state of the concrete example traces below. -/
def exInit : QueueState Nat :=
  initState Nat (mergeConfig {})

/-- One task added with caller-chosen id "dup". -/
def c1state1 : QueueState Nat :=
  (add exInit 0 { id := some "dup" } 0 "g1").2

/-- A second task added with the same caller-chosen id "dup". -/
def c1state2 : QueueState Nat :=
  (add c1state1 1 { id := some "dup" } 1 "g2").2

/-- Queue configured with `maxRetries = 0`, processor installed. -/
def c3state0 : QueueState Nat :=
  setProcessor (initState Nat (mergeConfig { maxRetries := some 0 }))

/-- ... one task added ... -/
def c3state1 : QueueState Nat :=
  (add c3state0 0 {} 0 "a").2

/-- ... dispatched (now PROCESSING) ... -/
def c3state2 : QueueState Nat :=
  dispatchStep c3state1 0

/-- ... and its processor invocation rejected: the failure path runs. -/
def c3state3 : QueueState Nat :=
  failStep c3state2 0 5 "boom"

/-- Queue configured with `maxRetries = 1`, processor installed, one task
added and dispatched — the state just before its only attempt fails. -/
def c3wit : QueueState Nat :=
  dispatchStep ((add (setProcessor (initState Nat (mergeConfig { maxRetries := some 1 }))) 0 {} 0 "a").2) 0

/-- Queue constructed with a negative `concurrency`. -/
def c4neg : QueueState Nat :=
  initState Nat (mergeConfig { concurrency := some (-1) })

/-- Three tasks added with priorities 1, 10, 5 in that order (the spec's
ordering example). -/
def c5state : QueueState Nat :=
  (add ((add ((add exInit 0 { priority := some 1 } 0 "t1").2) 0 { priority := some 10 } 1 "t2").2) 0 { priority := some 5 } 2 "t3").2

/-- Configuration input with a negative concurrency value. -/
def c8input : QueueConfigInput :=
  { concurrency := some (-1) }

/-- Task "A" added at time 0 with delay 100 (so `processAt = 100`), then
task "B" added at time 1 with no delay; both have priority 0.  "B" became
eligible at time 1, "A" only at time 100. -/
def c9state : QueueState Nat :=
  (add ((add exInit 0 { delay := some 100, id := some "A" } 0 "gA").2) 0 { id := some "B" } 1 "gB").2

/-- A FAILED task with a future `processAt`, used to exercise `retry`. -/
def exFailedTask : Task Nat :=
  { id := "f1", data := 7, status := TaskStatus.failed, retryCount := 3,
    createdAt := 0, updatedAt := 4, error := some "boom", priority := 2,
    delay := none, processAt := some 500 }

/-- A PROCESSING task, used to exercise `remove`. -/
def exProcTask : Task Nat :=
  { id := "p1", data := 8, status := TaskStatus.processing, retryCount := 0,
    createdAt := 1, updatedAt := 2, error := none, priority := 5,
    delay := none, processAt := none }

/-- A queue state holding the failed task and the processing task. -/
def exMixedState : QueueState Nat :=
  { tasks := [exProcTask, exFailedTask], processingCount := 1,
    config := mergeConfig {}, hasProcessor := true }

/-- The task of `c3wit` as it sits in the array right after dispatch. -/
def c3witTask : Task Nat :=
  { id := "a", data := 0, status := TaskStatus.processing, retryCount := 0,
    createdAt := 0, updatedAt := 0, error := none, priority := 0,
    delay := none, processAt := none }

/-- Queue constructed with negative concurrency (for the constructor
claim). -/
def c8state : QueueState Nat :=
  initState Nat (mergeConfig c8input)

/-- Task "A" of `c9state` as stored: created at 0 with `processAt = 100`. -/
def c9taskA : Task Nat :=
  { id := "A", data := 0, status := TaskStatus.pending, retryCount := 0,
    createdAt := 0, updatedAt := 0, error := none, priority := 0,
    delay := some 100, processAt := some 100 }

/-- Task "B" of `c9state` as stored: created at 1, immediately eligible. -/
def c9taskB : Task Nat :=
  { id := "B", data := 0, status := TaskStatus.pending, retryCount := 0,
    createdAt := 1, updatedAt := 1, error := none, priority := 0,
    delay := none, processAt := none }

/-- A task list sorted by the comparator of `sortTasksByPriority`
(descending priority, ties by ascending createdAt). -/
def SortedTasks {α : Type} (l : List (Task α)) : Prop :=
  l.Pairwise (fun a b => taskLE a b = true)

/-- Inductive invariant of reachable queue states: the `processingCount`
counter equals the number of PROCESSING tasks and respects the concurrency
limit; the task array is kept sorted; and (for a positive `maxRetries`)
every non-terminal task still has retries left. -/
def Inv {α : Type} (s : QueueState α) : Prop :=
  ((countProcessing s.tasks : Int) = s.processingCount ∧
    s.processingCount ≤ max s.config.concurrency 0) ∧
  SortedTasks s.tasks ∧
  (1 ≤ s.config.maxRetries → ∀ t ∈ s.tasks,
    (t.status = TaskStatus.pending ∨ t.status = TaskStatus.processing) →
    t.retryCount < s.config.maxRetries)

/-- The comparator order is total. -/
theorem taskLE_total {α : Type} (a b : Task α) :
    taskLE a b = true ∨ taskLE b a = true := by
  simp only [taskLE]
  split_ifs with h1 h2 h3 <;> simp only [decide_eq_true_eq] <;> omega

/-- The comparator order is transitive. -/
theorem taskLE_trans {α : Type} {a b c : Task α} (h1 : taskLE a b = true)
    (h2 : taskLE b c = true) : taskLE a c = true := by
  simp only [taskLE] at h1 h2 ⊢
  split_ifs at h1 h2 ⊢ <;> simp only [decide_eq_true_eq] at h1 h2 ⊢ <;> omega

/-- Membership in a stable insertion. -/
theorem mem_insertSorted {α : Type} (t x : Task α) (l : List (Task α)) :
    x ∈ insertSorted t l ↔ x = t ∨ x ∈ l := by
  induction l with
  | nil => simp [insertSorted]
  | cons y ys ih =>
    by_cases h : taskLE y t = true
    · simp only [insertSorted, if_pos h, List.mem_cons, ih]
      tauto
    · simp only [insertSorted, if_neg h, List.mem_cons]

/-- Stable insertion permutes to consing. -/
theorem insertSorted_perm {α : Type} (t : Task α) (l : List (Task α)) :
    List.Perm (insertSorted t l) (t :: l) := by
  induction l with
  | nil => simp [insertSorted]
  | cons y ys ih =>
    by_cases h : taskLE y t = true
    · simp only [insertSorted, if_pos h]
      exact List.Perm.trans (List.Perm.cons y ih) (List.Perm.swap t y ys)
    · simp [insertSorted, if_neg h]

/-- Stable insertion preserves sortedness by the comparator. -/
theorem pairwise_insertSorted {α : Type} (t : Task α) {l : List (Task α)}
    (h : l.Pairwise (fun a b => taskLE a b = true)) :
    (insertSorted t l).Pairwise (fun a b => taskLE a b = true) := by
  induction l with
  | nil => simp [insertSorted]
  | cons y ys ih =>
    rcases List.pairwise_cons.mp h with ⟨hy, hys⟩
    by_cases hle : taskLE y t = true
    · simp only [insertSorted, if_pos hle]
      refine List.pairwise_cons.mpr ⟨?_, ih hys⟩
      intro z hz
      rcases (mem_insertSorted t z ys).mp hz with rfl | hz2
      · exact hle
      · exact hy z hz2
    · simp only [insertSorted, if_neg hle]
      have hty : taskLE t y = true := by
        rcases taskLE_total y t with h1 | h1
        · exact absurd h1 hle
        · exact h1
      refine List.pairwise_cons.mpr ⟨?_, h⟩
      intro z hz
      rcases List.mem_cons.mp hz with rfl | hz2
      · exact hty
      · exact taskLE_trans hty (hy z hz2)

/-- Folding stable insertions over a list permutes to appending. -/
theorem foldl_insertSorted_perm {α : Type} (ts : List (Task α)) :
    ∀ acc, List.Perm (ts.foldl (fun a t => insertSorted t a) acc) (acc ++ ts) := by
  induction ts with
  | nil => intro acc; simp
  | cons t ts ih =>
    intro acc
    simp only [List.foldl_cons]
    refine List.Perm.trans (ih (insertSorted t acc)) ?_
    refine List.Perm.trans (List.Perm.append_right ts (insertSorted_perm t acc)) ?_
    exact List.Perm.symm List.perm_middle

/-- The sort routine returns a permutation of its input. -/
theorem sortTasksByPriority_perm {α : Type} (l : List (Task α)) :
    List.Perm (sortTasksByPriority l) l := by
  simpa using foldl_insertSorted_perm l []

/-- Folding stable insertions keeps the accumulator sorted. -/
theorem pairwise_foldl_insertSorted {α : Type} (ts : List (Task α)) :
    ∀ acc, acc.Pairwise (fun a b : Task α => taskLE a b = true) →
      (ts.foldl (fun a t => insertSorted t a) acc).Pairwise
        (fun a b => taskLE a b = true) := by
  induction ts with
  | nil => intro acc hacc; simpa using hacc
  | cons t ts ih =>
    intro acc hacc
    simp only [List.foldl_cons]
    exact ih (insertSorted t acc) (pairwise_insertSorted t hacc)

/-- The sort routine returns a list sorted by the comparator. -/
theorem pairwise_sortTasksByPriority {α : Type} (l : List (Task α)) :
    (sortTasksByPriority l).Pairwise (fun a b => taskLE a b = true) := by
  exact pairwise_foldl_insertSorted l [] (by simp)

/-- Decomposition of a successful `find?`: the list splits at the first
match, and `updateFirst`/`eraseFirst` act exactly there. -/
theorem find?_decomp {α : Type} (p : Task α → Bool) (l : List (Task α)) (t : Task α)
    (h : l.find? p = some t) :
    ∃ l1 l2, l = l1 ++ t :: l2 ∧ (∀ x ∈ l1, p x = false) ∧ p t = true ∧
      (∀ f, updateFirst p f l = l1 ++ f t :: l2) ∧ eraseFirst p l = l1 ++ l2 := by
  induction l with
  | nil => simp at h
  | cons y ys ih =>
    by_cases hp : p y = true
    · have hyt : y = t := by
        have := List.find?_cons_of_pos (l := ys) hp
        rw [this] at h
        exact Option.some.inj h
      subst hyt
      refine ⟨[], ys, rfl, by simp, hp, ?_, ?_⟩
      · intro f; simp [updateFirst, hp]
      · simp [eraseFirst, hp]
    · have hp2 : p y = false := by
        rcases Bool.eq_false_or_eq_true (p y) with h1 | h1
        · exact absurd h1 hp
        · exact h1
      have h2 : ys.find? p = some t := by
        have := List.find?_cons_of_neg (l := ys) hp
        rw [this] at h
        exact h
      obtain ⟨l1, l2, rfl, hnone, hpt, hupd, hera⟩ := ih h2
      refine ⟨y :: l1, l2, rfl, ?_, hpt, ?_, ?_⟩
      · intro x hx
        rcases List.mem_cons.mp hx with rfl | hx2
        · exact hp2
        · exact hnone x hx2
      · intro f
        simp [updateFirst, hp2, hupd f]
      · simp [eraseFirst, hp2, hera]

/-- `updateFirst` is the identity when nothing matches. -/
theorem updateFirst_of_none {α : Type} (p : Task α → Bool) (f : Task α → Task α)
    (l : List (Task α)) (h : ∀ x ∈ l, p x = false) : updateFirst p f l = l := by
  induction l with
  | nil => rfl
  | cons y ys ih =>
    have hy : p y = false := h y (List.mem_cons_self y ys)
    simp [updateFirst, hy, ih fun x hx => h x (List.mem_cons_of_mem y hx)]

/-- Decomposition of a successful index lookup: the list splits at the
index, and `modifyAt` acts exactly there. -/
theorem get?_decomp {α : Type} (l : List (Task α)) (i : Nat) (t : Task α)
    (h : l.get? i = some t) :
    ∃ l1 l2, l = l1 ++ t :: l2 ∧ l1.length = i ∧
      ∀ f, modifyAt f i l = l1 ++ f t :: l2 := by
  induction l generalizing i with
  | nil => simp at h
  | cons y ys ih =>
    cases i with
    | zero =>
      have hyt : y = t := by simpa using h
      subst hyt
      exact ⟨[], ys, rfl, rfl, fun f => rfl⟩
    | succ n =>
      have h2 : ys.get? n = some t := by simpa using h
      obtain ⟨l1, l2, rfl, hlen, hmod⟩ := ih n h2
      refine ⟨y :: l1, l2, rfl, by simp [hlen], ?_⟩
      intro f
      simp [modifyAt, hmod f]

/-- Counting PROCESSING tasks distributes over append. -/
theorem countProcessing_append {α : Type} (l1 l2 : List (Task α)) :
    countProcessing (l1 ++ l2) = countProcessing l1 + countProcessing l2 :=
  List.countP_append _ _ _

/-- Counting PROCESSING tasks on a cons. -/
theorem countProcessing_cons {α : Type} (t : Task α) (l : List (Task α)) :
    countProcessing (t :: l) =
      countProcessing l + (if t.status = TaskStatus.processing then 1 else 0) := by
  simp [countProcessing, List.countP_cons]

/-- Sorting does not change the PROCESSING count. -/
theorem countProcessing_sort {α : Type} (l : List (Task α)) :
    countProcessing (sortTasksByPriority l) = countProcessing l :=
  List.Perm.countP_eq _ (sortTasksByPriority_perm l)

/-- Sorting does not change membership. -/
theorem mem_sortTasksByPriority {α : Type} {t : Task α} {l : List (Task α)} :
    t ∈ sortTasksByPriority l ↔ t ∈ l :=
  List.Perm.mem_iff (sortTasksByPriority_perm l)

/-- The comparator only looks at `priority` and `createdAt`. -/
theorem taskLE_key {α : Type} {t u : Task α} (hp : u.priority = t.priority)
    (hc : u.createdAt = t.createdAt) (c : Task α) :
    taskLE u c = taskLE t c ∧ taskLE c u = taskLE c t := by
  constructor <;> simp [taskLE, hp, hc]

/-- Replacing one element by one with the same sort key preserves
sortedness. -/
theorem sorted_replace_mid {α : Type} {l1 l2 : List (Task α)} {t u : Task α}
    (hp : u.priority = t.priority) (hc : u.createdAt = t.createdAt)
    (h : SortedTasks (l1 ++ t :: l2)) : SortedTasks (l1 ++ u :: l2) := by
  rcases List.pairwise_append.mp h with ⟨h1, h2, h3⟩
  rcases List.pairwise_cons.mp h2 with ⟨ht, hl2⟩
  refine List.pairwise_append.mpr ⟨h1, ?_, ?_⟩
  · refine List.pairwise_cons.mpr ⟨?_, hl2⟩
    intro z hz
    rw [(taskLE_key hp hc z).1]
    exact ht z hz
  · intro a ha b hb
    rcases List.mem_cons.mp hb with rfl | hb2
    · rw [(taskLE_key hp hc a).2]
      exact h3 a ha t (List.mem_cons_self t l2)
    · exact h3 a ha b (List.mem_cons_of_mem t hb2)

/-- A freshly constructed queue satisfies the invariant. -/
theorem inv_initState (α : Type) (cfg : QueueConfig) : Inv (initState α cfg) := by
  refine ⟨⟨rfl, ?_⟩, List.Pairwise.nil, ?_⟩
  · exact le_max_right _ _
  · intro _ t ht
    simp [initState] at ht

/-- setProcessor preserves the invariant. -/
theorem inv_setProcessor {α : Type} {s : QueueState α} (h : Inv s) :
    Inv (setProcessor s) := h

/-- add preserves the invariant. -/
theorem inv_add {α : Type} {s : QueueState α} (data : α) (opts : AddTaskOptions)
    (now : Int) (genId : String) (h : Inv s) : Inv (add s data opts now genId).2 := by
  obtain ⟨⟨hcount, hle⟩, hsorted, hrc⟩ := h
  refine ⟨⟨?_, hle⟩, ?_, ?_⟩
  · simp only [add, countProcessing_sort, countProcessing_append, countProcessing_cons]
    simpa [countProcessing] using hcount
  · exact pairwise_sortTasksByPriority _
  · intro hm t ht hstat
    simp only [add] at ht
    rcases List.mem_append.mp (mem_sortTasksByPriority.mp ht) with ht2 | ht2
    · exact hrc hm t ht2 hstat
    · have h0 : t.retryCount = 0 := by
        rw [List.mem_singleton] at ht2
        subst ht2
        rfl
      omega

/-- An eligible task is PENDING. -/
theorem isEligible_pending {α : Type} {now : Int} {t : Task α}
    (h : isEligible now t = true) : t.status = TaskStatus.pending := by
  unfold isEligible at h
  simp only [Bool.and_eq_true, decide_eq_true_eq] at h
  exact h.1

/-- Unfolding `statusAt`. -/
theorem statusAt_some {α : Type} {s : QueueState α} {i : Nat} {st : TaskStatus}
    (h : statusAt s i = some st) :
    ∃ t, s.tasks.get? i = some t ∧ t.status = st := by
  unfold statusAt at h
  cases hg : s.tasks.get? i with
  | none => rw [hg] at h; simp at h
  | some t =>
    rw [hg] at h
    exact ⟨t, rfl, by simpa using h⟩

/-- remove preserves the invariant. -/
theorem inv_remove {α : Type} {s : QueueState α} (taskId : String) (h : Inv s) :
    Inv (remove s taskId).2 := by
  obtain ⟨⟨hcount, hle⟩, hsorted, hrc⟩ := h
  unfold remove
  cases hfind : s.tasks.find? (fun t => decide (t.id = taskId)) with
  | none => exact ⟨⟨hcount, hle⟩, hsorted, hrc⟩
  | some t =>
    by_cases hstat : t.status = TaskStatus.processing
    · simp only [if_pos hstat]
      exact ⟨⟨hcount, hle⟩, hsorted, hrc⟩
    · simp only [if_neg hstat]
      obtain ⟨l1, l2, hl, hnone, hpt, hupd, hera⟩ := find?_decomp _ _ _ hfind
      have e1 : countProcessing s.tasks = countProcessing l1 + countProcessing l2 := by
        rw [hl, countProcessing_append, countProcessing_cons, if_neg hstat]
        omega
      refine ⟨⟨?_, hle⟩, ?_, ?_⟩
      · dsimp only
        rw [hera, countProcessing_append]
        omega
      · dsimp only
        rw [hera]
        rw [hl] at hsorted
        refine List.Pairwise.sublist ?_ hsorted
        exact List.Sublist.append_left (List.sublist_cons_self t l2) l1
      · intro hm x hx hxs
        refine hrc hm x ?_ hxs
        rw [hera] at hx
        rw [hl]
        rcases List.mem_append.mp hx with h1 | h1
        · exact List.mem_append.mpr (Or.inl h1)
        · exact List.mem_append.mpr (Or.inr (List.mem_cons_of_mem t h1))

/-- retry preserves the invariant. -/
theorem inv_retry {α : Type} {s : QueueState α} (taskId : String) (now : Int)
    (h : Inv s) : Inv (retry s taskId now).2 := by
  obtain ⟨⟨hcount, hle⟩, hsorted, hrc⟩ := h
  unfold retry
  cases hfind : s.tasks.find? (fun t => decide (t.id = taskId)) with
  | none => exact ⟨⟨hcount, hle⟩, hsorted, hrc⟩
  | some t =>
    by_cases hstat : t.status = TaskStatus.failed
    · simp only [if_pos hstat]
      obtain ⟨l1, l2, hl, hnone, hpt, hupd, hera⟩ := find?_decomp _ _ _ hfind
      have htnp : ¬ t.status = TaskStatus.processing := by
        rw [hstat]; intro hcontra; cases hcontra
      have e1 : countProcessing s.tasks = countProcessing l1 + countProcessing l2 := by
        rw [hl, countProcessing_append, countProcessing_cons, if_neg htnp]
        omega
      refine ⟨⟨?_, hle⟩, ?_, ?_⟩
      · dsimp only
        rw [hupd (retryResetTask now), countProcessing_sort, countProcessing_append,
          countProcessing_cons]
        have hnp : ¬ (retryResetTask now t).status = TaskStatus.processing := by
          intro hcontra; cases hcontra
        rw [if_neg hnp]
        omega
      · exact pairwise_sortTasksByPriority _
      · intro hm x hx hxs
        rw [hupd (retryResetTask now)] at hx
        rcases List.mem_append.mp (mem_sortTasksByPriority.mp hx) with h1 | h1
        · refine hrc hm x ?_ hxs
          rw [hl]; exact List.mem_append.mpr (Or.inl h1)
        · rcases List.mem_cons.mp h1 with rfl | h2
          · have : (retryResetTask now t).retryCount = 0 := rfl
            omega
          · refine hrc hm x ?_ hxs
            rw [hl]
            exact List.mem_append.mpr (Or.inr (List.mem_cons_of_mem t h2))
    · simp only [if_neg hstat]
      exact ⟨⟨hcount, hle⟩, hsorted, hrc⟩

/-- Filtering by a predicate that keeps every PROCESSING task does not
change the PROCESSING count. -/
theorem countProcessing_filter_keep {α : Type} (q : Task α → Bool)
    (l : List (Task α)) (h : ∀ t : Task α, t.status = TaskStatus.processing → q t = true) :
    countProcessing (l.filter q) = countProcessing l := by
  unfold countProcessing
  rw [List.countP_filter]
  refine List.countP_congr ?_
  intro x _
  by_cases hy : x.status = TaskStatus.processing
  · simp [hy, h x hy]
  · simp [hy]

/-- Resetting every FAILED task does not change the PROCESSING count. -/
theorem countProcessing_map_retryReset {α : Type} (now : Int) (l : List (Task α)) :
    countProcessing (l.map
      (fun t => if t.status = TaskStatus.failed then retryResetTask now t else t)) =
    countProcessing l := by
  unfold countProcessing
  rw [List.countP_map]
  refine List.countP_congr ?_
  intro x _
  by_cases hf : x.status = TaskStatus.failed
  · simp [Function.comp, hf, retryResetTask]
  · simp [Function.comp, hf]

/-- retryAll preserves the invariant. -/
theorem inv_retryAll {α : Type} {s : QueueState α} (now : Int) (h : Inv s) :
    Inv (retryAll s now).2 := by
  obtain ⟨⟨hcount, hle⟩, hsorted, hrc⟩ := h
  simp only [retryAll]
  by_cases hn : (s.tasks.filter (fun t => decide (t.status = TaskStatus.failed))).length = 0
  · rw [if_pos hn]
    exact ⟨⟨hcount, hle⟩, hsorted, hrc⟩
  · rw [if_neg hn]
    refine ⟨⟨?_, hle⟩, ?_, ?_⟩
    · dsimp only
      rw [countProcessing_sort, countProcessing_map_retryReset]
      exact hcount
    · exact pairwise_sortTasksByPriority _
    · intro hm x hx hxs
      dsimp only at hx
      obtain ⟨y, hy, hyx⟩ := List.mem_map.mp (mem_sortTasksByPriority.mp hx)
      by_cases hf : y.status = TaskStatus.failed
      · rw [if_pos hf] at hyx
        have : x.retryCount = 0 := by rw [← hyx]; rfl
        omega
      · rw [if_neg hf] at hyx
        subst hyx
        exact hrc hm y hy hxs

/-- clearCompleted preserves the invariant. -/
theorem inv_clearCompleted {α : Type} {s : QueueState α} (h : Inv s) :
    Inv (clearCompleted s).2 := by
  obtain ⟨⟨hcount, hle⟩, hsorted, hrc⟩ := h
  refine ⟨⟨?_, hle⟩, ?_, ?_⟩
  · dsimp only [clearCompleted]
    rw [countProcessing_filter_keep]
    · exact hcount
    · intro t ht
      rw [ht]
      rfl
  · exact List.Pairwise.sublist (List.filter_sublist _) hsorted
  · intro hm x hx hxs
    exact hrc hm x (List.mem_filter.mp hx).1 hxs

/-- clearFailed preserves the invariant. -/
theorem inv_clearFailed {α : Type} {s : QueueState α} (h : Inv s) :
    Inv (clearFailed s).2 := by
  obtain ⟨⟨hcount, hle⟩, hsorted, hrc⟩ := h
  refine ⟨⟨?_, hle⟩, ?_, ?_⟩
  · dsimp only [clearFailed]
    rw [countProcessing_filter_keep]
    · exact hcount
    · intro t ht
      rw [ht]
      rfl
  · exact List.Pairwise.sublist (List.filter_sublist _) hsorted
  · intro hm x hx hxs
    exact hrc hm x (List.mem_filter.mp hx).1 hxs

/-- clear preserves the invariant. -/
theorem inv_clear {α : Type} {s : QueueState α} (h : Inv s) :
    Inv (clear s) := by
  obtain ⟨⟨hcount, hle⟩, hsorted, hrc⟩ := h
  refine ⟨⟨?_, hle⟩, ?_, ?_⟩
  · dsimp only [clear]
    rw [countProcessing_filter_keep]
    · exact hcount
    · intro t ht
      rw [ht]
      rfl
  · exact List.Pairwise.sublist (List.filter_sublist _) hsorted
  · intro hm x hx hxs
    exact hrc hm x (List.mem_filter.mp hx).1 hxs

/-- dispatch preserves the invariant. -/
theorem inv_dispatch {α : Type} {s : QueueState α} (now : Int) (h : Inv s) :
    Inv (dispatchStep s now) := by
  obtain ⟨⟨hcount, hle⟩, hsorted, hrc⟩ := h
  unfold dispatchStep
  by_cases hg : (s.hasProcessor && decide (s.processingCount < s.config.concurrency)) = true
  · rw [if_pos hg]
    cases hfind : getNextTask s now with
    | none => exact ⟨⟨hcount, hle⟩, hsorted, hrc⟩
    | some t =>
      have hpc : s.processingCount < s.config.concurrency := by
        simp only [Bool.and_eq_true, decide_eq_true_eq] at hg
        exact hg.2
      unfold getNextTask at hfind
      obtain ⟨l1, l2, hl, hnone, hpt, hupd, hera⟩ := find?_decomp _ _ _ hfind
      have htp : t.status = TaskStatus.pending := isEligible_pending hpt
      have e1 : countProcessing s.tasks = countProcessing l1 + countProcessing l2 := by
        have hnp : ¬ t.status = TaskStatus.processing := by
          rw [htp]; intro hc; cases hc
        rw [hl, countProcessing_append, countProcessing_cons, if_neg hnp]
        omega
      refine ⟨⟨?_, ?_⟩, ?_, ?_⟩
      · dsimp only
        rw [hupd _, countProcessing_append, countProcessing_cons]
        rw [if_pos rfl]
        omega
      · dsimp only
        have hmax := le_max_left s.config.concurrency (0 : Int)
        omega
      · dsimp only
        rw [hupd _]
        rw [hl] at hsorted
        exact @sorted_replace_mid α l1 l2 t _ rfl rfl hsorted
      · intro hm x hx hxs
        dsimp only at hm hx ⊢
        rw [hupd _] at hx
        rcases List.mem_append.mp hx with h1 | h1
        · refine hrc hm x ?_ hxs
          rw [hl]
          exact List.mem_append.mpr (Or.inl h1)
        · rcases List.mem_cons.mp h1 with rfl | h2
          · have e2 : ({ t with status := TaskStatus.processing, updatedAt := now } : Task α).retryCount = t.retryCount := rfl
            have e3 := hrc hm t (by rw [hl]; exact List.mem_append.mpr (Or.inr (List.mem_cons_self t l2))) (Or.inl htp)
            omega
          · refine hrc hm x ?_ hxs
            rw [hl]
            exact List.mem_append.mpr (Or.inr (List.mem_cons_of_mem t h2))
  · rw [if_neg hg]
    exact ⟨⟨hcount, hle⟩, hsorted, hrc⟩

/-- complete preserves the invariant. -/
theorem inv_complete {α : Type} {s : QueueState α} (i : Nat) (now : Int)
    (hst : statusAt s i = some TaskStatus.processing) (h : Inv s) :
    Inv (completeStep s i now) := by
  obtain ⟨⟨hcount, hle⟩, hsorted, hrc⟩ := h
  obtain ⟨t, hget, htp⟩ := statusAt_some hst
  obtain ⟨l1, l2, hl, hlen, hmod⟩ := get?_decomp _ _ _ hget
  have e1 : countProcessing s.tasks = countProcessing l1 + countProcessing l2 + 1 := by
    rw [hl, countProcessing_append, countProcessing_cons, if_pos htp]
    omega
  unfold completeStep
  refine ⟨⟨?_, ?_⟩, ?_, ?_⟩
  · dsimp only
    rw [hmod _, countProcessing_append, countProcessing_cons]
    have hnp : ¬ ({ t with status := TaskStatus.completed, updatedAt := now } : Task α).status = TaskStatus.processing := by
      intro hc; cases hc
    rw [if_neg hnp]
    omega
  · dsimp only
    omega
  · dsimp only
    rw [hmod _]
    rw [hl] at hsorted
    exact @sorted_replace_mid α l1 l2 t _ rfl rfl hsorted
  · intro hm x hx hxs
    dsimp only at hm hx ⊢
    rw [hmod _] at hx
    rcases List.mem_append.mp hx with h1 | h1
    · refine hrc hm x ?_ hxs
      rw [hl]
      exact List.mem_append.mpr (Or.inl h1)
    · rcases List.mem_cons.mp h1 with rfl | h2
      · rcases hxs with h3 | h3 <;> simp at h3
      · refine hrc hm x ?_ hxs
        rw [hl]
        exact List.mem_append.mpr (Or.inr (List.mem_cons_of_mem t h2))

/-- failTaskUpdate keeps the sort key and increments the retry count. -/
theorem failTaskUpdate_key {α : Type} (cfg : QueueConfig) (now : Int) (msg : String)
    (t : Task α) :
    (failTaskUpdate cfg now msg t).priority = t.priority ∧
    (failTaskUpdate cfg now msg t).createdAt = t.createdAt ∧
    (failTaskUpdate cfg now msg t).retryCount = t.retryCount + 1 := by
  dsimp only [failTaskUpdate]
  split_ifs <;> exact ⟨rfl, rfl, rfl⟩

/-- failTaskUpdate ends FAILED when retries are exhausted and PENDING
otherwise. -/
theorem failTaskUpdate_status {α : Type} (cfg : QueueConfig) (now : Int) (msg : String)
    (t : Task α) :
    ((failTaskUpdate cfg now msg t).status = TaskStatus.failed ∧
      cfg.maxRetries ≤ t.retryCount + 1) ∨
    ((failTaskUpdate cfg now msg t).status = TaskStatus.pending ∧
      t.retryCount + 1 < cfg.maxRetries) := by
  dsimp only [failTaskUpdate]
  split_ifs with hc
  · exact Or.inl ⟨rfl, hc⟩
  · exact Or.inr ⟨rfl, by omega⟩

/-- fail preserves the invariant. -/
theorem inv_fail {α : Type} {s : QueueState α} (i : Nat) (now : Int) (msg : String)
    (hst : statusAt s i = some TaskStatus.processing) (h : Inv s) :
    Inv (failStep s i now msg) := by
  obtain ⟨⟨hcount, hle⟩, hsorted, hrc⟩ := h
  obtain ⟨t, hget, htp⟩ := statusAt_some hst
  obtain ⟨l1, l2, hl, hlen, hmod⟩ := get?_decomp _ _ _ hget
  have e1 : countProcessing s.tasks = countProcessing l1 + countProcessing l2 + 1 := by
    rw [hl, countProcessing_append, countProcessing_cons, if_pos htp]
    omega
  obtain ⟨hkp, hkc, hkr⟩ := failTaskUpdate_key s.config now msg t
  unfold failStep
  refine ⟨⟨?_, ?_⟩, ?_, ?_⟩
  · dsimp only
    rw [hmod _, countProcessing_append, countProcessing_cons]
    have hnp : ¬ (failTaskUpdate s.config now msg t).status = TaskStatus.processing := by
      rcases failTaskUpdate_status s.config now msg t with ⟨h1, _⟩ | ⟨h1, _⟩ <;>
        rw [h1] <;> intro hc <;> cases hc
    rw [if_neg hnp]
    omega
  · dsimp only
    omega
  · dsimp only
    rw [hmod _]
    rw [hl] at hsorted
    exact sorted_replace_mid hkp hkc hsorted
  · intro hm x hx hxs
    dsimp only at hm hx ⊢
    rw [hmod _] at hx
    rcases List.mem_append.mp hx with h1 | h1
    · refine hrc hm x ?_ hxs
      rw [hl]
      exact List.mem_append.mpr (Or.inl h1)
    · rcases List.mem_cons.mp h1 with rfl | h2
      · rcases failTaskUpdate_status s.config now msg t with ⟨h3, _⟩ | ⟨h3, h4⟩
        · rcases hxs with h5 | h5 <;> rw [h3] at h5 <;> cases h5
        · omega
      · refine hrc hm x ?_ hxs
        rw [hl]
        exact List.mem_append.mpr (Or.inr (List.mem_cons_of_mem t h2))

/-- Every reachable queue state satisfies the invariant. -/
theorem reachable_inv {α : Type} {s : QueueState α} (h : Reachable α s) : Inv s := by
  induction h with
  | init input => exact inv_initState α (mergeConfig input)
  | setProcessor _ ih => exact inv_setProcessor ih
  | add data opts now genId _ ih => exact inv_add data opts now genId ih
  | remove taskId _ ih => exact inv_remove taskId ih
  | retry taskId now _ ih => exact inv_retry taskId now ih
  | retryAll now _ ih => exact inv_retryAll now ih
  | clearCompleted _ ih => exact inv_clearCompleted ih
  | clearFailed _ ih => exact inv_clearFailed ih
  | clear _ ih => exact inv_clear ih
  | dispatch now _ ih => exact inv_dispatch now ih
  | complete i now _ hstat ih => exact inv_complete i now hstat ih
  | fail i now msg _ hstat ih => exact inv_fail i now msg hstat ih

/-- The comparator, spelled out: a task may precede another iff it has
strictly higher priority, or equal priority and no later creation time. -/
theorem taskLE_iff {α : Type} (a b : Task α) :
    taskLE a b = true ↔
      (b.priority < a.priority ∨
        (a.priority = b.priority ∧ a.createdAt ≤ b.createdAt)) := by
  unfold taskLE
  split_ifs with h <;> simp only [decide_eq_true_eq] <;> constructor <;> intro h2
  · exact Or.inr ⟨h, h2⟩
  · rcases h2 with h3 | h3
    · omega
    · exact h3.2
  · exact Or.inl h2
  · rcases h2 with h3 | h3
    · exact h3
    · exact absurd h3.1 h

/-- C1: counterexample — two add calls with the same caller-chosen id
"dup" produce a reachable Task Store holding two tasks with that id; add
signals no error (it returns the id both times), refuting the claimed
duplicate-id rejection. -/
theorem c1_duplicate_id_counterexample :
    Reachable Nat c1state2 ∧
    (c1state2.tasks.filter (fun t => decide (t.id = "dup"))).length = 2 ∧
    (add c1state1 1 { id := some "dup" } 1 "g2").1 = "dup" := by
  refine ⟨?_, by decide, by decide⟩
  exact Reachable.add 1 { id := some "dup" } 1 "g2"
    (Reachable.add 0 { id := some "dup" } 0 "g1" (Reachable.init {}))

/-- C1 (amended): add performs no duplicate-id check: it always inserts
exactly one new task, and a nonempty caller-chosen id is used verbatim
even when a task with that id is already stored, increasing the count of
stored tasks with that id by one. -/
theorem c1_add_never_rejects {α : Type} (s : QueueState α) (data : α)
    (opts : AddTaskOptions) (now : Int) (genId : String) :
    (add s data opts now genId).2.tasks.length = s.tasks.length + 1 ∧
    (∀ i, opts.id = some i → i ≠ "" →
      (add s data opts now genId).1 = i ∧
      (add s data opts now genId).2.tasks.countP (fun t => decide (t.id = i)) =
        s.tasks.countP (fun t => decide (t.id = i)) + 1) := by
  simp only [add]
  constructor
  · rw [List.Perm.length_eq (sortTasksByPriority_perm _)]
    simp
  · intro i hi hne
    rw [hi]
    constructor
    · simp [hne]
    · rw [List.Perm.countP_eq _ (sortTasksByPriority_perm _), List.countP_append]
      simp [List.countP_cons, hne]

/-- C1 amended witness: the duplicate add stores a second "dup" task. -/
theorem c1_add_never_rejects_witness :
    (add c1state1 1 { id := some "dup" } 1 "g2").1 = "dup" ∧
    (add c1state1 1 { id := some "dup" } 1 "g2").2.tasks.countP
        (fun t => decide (t.id = "dup")) =
      c1state1.tasks.countP (fun t => decide (t.id = "dup")) + 1 :=
  (c1_add_never_rejects c1state1 1 { id := some "dup" } 1 "g2").2 "dup" rfl
    (by decide)

/-- C2: calculateRetryDelay returns baseDelay when exponential backoff is
off, and min(baseDelay * 2^k, maxDelay) when it is on, for every retry
count k >= 0, every base delay and every cap — it coincides with the
spec-side formula. -/
theorem c2_calculateRetryDelay_spec (k : Nat) (baseDelay maxDelay : Int)
    (exponential : Bool) :
    calculateRetryDelay (k : Int) baseDelay exponential maxDelay =
      specRetryDelay k baseDelay exponential maxDelay ∧
    calculateRetryDelay (k : Int) baseDelay false maxDelay = baseDelay ∧
    calculateRetryDelay (k : Int) baseDelay true maxDelay =
      min (baseDelay * 2 ^ k) maxDelay := by
  unfold calculateRetryDelay specRetryDelay
  cases exponential <;> simp

/-- C3: counterexample — with maxRetries configured to 0 (which the
constructor accepts), the first processor failure of a reachable
PROCESSING task sets its status to FAILED with retryCount 1, which differs
from the configured maxRetries 0. -/
theorem c3_maxRetries_zero_counterexample :
    Reachable Nat c3state2 ∧
    statusAt c3state2 0 = some TaskStatus.processing ∧
    c3state3 = failStep c3state2 0 5 "boom" ∧
    Reachable Nat c3state3 ∧
    c3state3.tasks.map (fun t => (t.status, t.retryCount)) =
      [(TaskStatus.failed, 1)] ∧
    c3state3.config.maxRetries = 0 := by
  have h2 : Reachable Nat c3state2 :=
    Reachable.dispatch 0 (Reachable.add 0 {} 0 "a"
      (Reachable.setProcessor (Reachable.init { maxRetries := some 0 })))
  exact ⟨h2, by decide, rfl, Reachable.fail 0 5 "boom" h2 (by decide),
    by decide, by decide⟩

/-- C3 (amended): provided the configured maxRetries is at least 1,
whenever the failure-handling path moves a reachable PROCESSING task to
FAILED, the task's retryCount at that moment equals the configured
maxRetries exactly.  (With maxRetries <= 0 the code instead fails at
retryCount 1.) -/
theorem c3_failed_at_maxRetries {α : Type} {s : QueueState α} (h : Reachable α s)
    (hm : 1 ≤ s.config.maxRetries) (i : Nat) (now : Int) (msg : String)
    (t : Task α) (hget : s.tasks.get? i = some t)
    (hst : t.status = TaskStatus.processing)
    (hfail : (failTaskUpdate s.config now msg t).status = TaskStatus.failed) :
    (failTaskUpdate s.config now msg t).retryCount = s.config.maxRetries := by
  have hmem : t ∈ s.tasks := List.get?_mem hget
  have hrc := (reachable_inv h).2.2 hm t hmem (Or.inr hst)
  obtain ⟨_, _, hkr⟩ := failTaskUpdate_key s.config now msg t
  rcases failTaskUpdate_status s.config now msg t with ⟨_, h2⟩ | ⟨h1, _⟩
  · omega
  · rw [h1] at hfail
    cases hfail

/-- C3 amended witness: with maxRetries 1, the single failure of the
dispatched task sets FAILED at retryCount 1 = maxRetries. -/
theorem c3_failed_at_maxRetries_witness :
    (failTaskUpdate c3wit.config 5 "boom" c3witTask).retryCount =
      c3wit.config.maxRetries :=
  c3_failed_at_maxRetries
    (Reachable.dispatch 0 (Reachable.add 0 {} 0 "a"
      (Reachable.setProcessor (Reachable.init { maxRetries := some 1 }))))
    (by decide) 0 5 "boom" c3witTask (by decide) rfl (by decide)

/-- C4: counterexample — the code accepts a negative configured
concurrency (see the constructor claim), and then even the freshly
constructed reachable state violates the bound as stated: it has zero
PROCESSING tasks, which exceeds the configured limit -1. -/
theorem c4_concurrency_counterexample :
    Reachable Nat c4neg ∧
    ¬ ((countProcessing c4neg.tasks : Int) ≤ c4neg.config.concurrency) := by
  refine ⟨?_, by decide⟩
  exact Reachable.init { concurrency := some (-1) }

/-- C4 (amended): in every reachable state — over any sequence of adds,
dispatches, completions, failures and retries — the number of PROCESSING
tasks is at most max(concurrency, 0); in particular it never exceeds the
configured concurrency whenever that limit is nonnegative. -/
theorem c4_processing_bounded {α : Type} {s : QueueState α} (h : Reachable α s) :
    (countProcessing s.tasks : Int) ≤ max s.config.concurrency 0 ∧
    (0 ≤ s.config.concurrency →
      (countProcessing s.tasks : Int) ≤ s.config.concurrency) := by
  obtain ⟨⟨hcount, hle⟩, _, _⟩ := reachable_inv h
  refine ⟨by omega, fun hz => ?_⟩
  rw [max_eq_left hz] at hle
  omega

/-- C4 amended witness on a concrete reachable state with the default
concurrency 1. -/
theorem c4_processing_bounded_witness :
    (countProcessing exInit.tasks : Int) ≤ exInit.config.concurrency :=
  (c4_processing_bounded (Reachable.init {})).2 (by decide)

/-- C5: in every reachable state (any sequence of add/retry and the other
operations), getTasks returns the tasks sorted by descending priority with
ties broken by ascending createdAt; in particular after adds with
priorities [1, 10, 5] it returns them in order [10, 5, 1]. -/
theorem c5_getTasks_sorted :
    (∀ (α : Type) (s : QueueState α), Reachable α s →
      (getTasks s).Pairwise (fun a b =>
        b.priority < a.priority ∨
          (a.priority = b.priority ∧ a.createdAt ≤ b.createdAt))) ∧
    (getTasks c5state).map (fun t => t.priority) = [10, 5, 1] := by
  constructor
  · intro α s h
    have hs := (reachable_inv h).2.1
    exact hs.imp (fun hab => (taskLE_iff _ _).mp hab)
  · decide

/-- C5 witness: the sortedness part applied to the concrete [1, 10, 5]
trace. -/
theorem c5_getTasks_sorted_witness :
    (getTasks c5state).Pairwise (fun a b =>
      b.priority < a.priority ∨
        (a.priority = b.priority ∧ a.createdAt ≤ b.createdAt)) :=
  c5_getTasks_sorted.1 Nat c5state
    (Reachable.add 0 { priority := some 5 } 2 "t3"
      (Reachable.add 0 { priority := some 10 } 1 "t2"
        (Reachable.add 0 { priority := some 1 } 0 "t1" (Reachable.init {}))))

/-- C6: retry(id) returns false and leaves the state unchanged unless the
task found by id is FAILED; on a FAILED task it returns true and replaces
exactly that task by its reset — status PENDING, retryCount 0, error
cleared — in the re-sorted list. -/
theorem c6_retry_spec {α : Type} (s : QueueState α) (taskId : String) (now : Int) :
    (s.tasks.find? (fun t => decide (t.id = taskId)) = none →
      retry s taskId now = (false, s)) ∧
    (∀ t, s.tasks.find? (fun t => decide (t.id = taskId)) = some t →
      t.status ≠ TaskStatus.failed → retry s taskId now = (false, s)) ∧
    (∀ t, s.tasks.find? (fun t => decide (t.id = taskId)) = some t →
      t.status = TaskStatus.failed →
      (retry s taskId now).1 = true ∧
      (retryResetTask now t).status = TaskStatus.pending ∧
      (retryResetTask now t).retryCount = 0 ∧
      (retryResetTask now t).error = none ∧
      ∃ l1 l2, s.tasks = l1 ++ t :: l2 ∧ (∀ x ∈ l1, x.id ≠ taskId) ∧
        (retry s taskId now).2.tasks =
          sortTasksByPriority (l1 ++ retryResetTask now t :: l2)) := by
  refine ⟨?_, ?_, ?_⟩
  · intro hf
    unfold retry
    rw [hf]
  · intro t hf hne
    unfold retry
    rw [hf]
    dsimp only
    rw [if_neg hne]
  · intro t hf hst
    obtain ⟨l1, l2, hl, hnone, hpt, hupd, _⟩ := find?_decomp _ _ _ hf
    refine ⟨?_, rfl, rfl, rfl, l1, l2, hl, ?_, ?_⟩
    · unfold retry
      rw [hf]
      dsimp only
      rw [if_pos hst]
    · intro x hx
      simpa using hnone x hx
    · unfold retry
      rw [hf]
      dsimp only
      rw [if_pos hst]
      dsimp only
      rw [hupd _]

/-- C6 witness: retrying the stored FAILED task "f1". -/
theorem c6_retry_spec_witness :
    (retry exMixedState "f1" 100).1 = true ∧
    (retryResetTask 100 exFailedTask).status = TaskStatus.pending ∧
    (retryResetTask 100 exFailedTask).retryCount = 0 ∧
    (retryResetTask 100 exFailedTask).error = none ∧
    ∃ l1 l2, exMixedState.tasks = l1 ++ exFailedTask :: l2 ∧
      (∀ x ∈ l1, x.id ≠ "f1") ∧
      (retry exMixedState "f1" 100).2.tasks =
        sortTasksByPriority (l1 ++ retryResetTask 100 exFailedTask :: l2) :=
  (c6_retry_spec exMixedState "f1" 100).2.2 exFailedTask (by decide) rfl

/-- C7: remove(id) returns false and leaves the task list unchanged when
no task has that id or the found task is PROCESSING (a Boolean failure
signal, no exception is modelled anywhere in remove); otherwise it returns
true and the new list is the old one with exactly that task spliced out. -/
theorem c7_remove_spec {α : Type} (s : QueueState α) (taskId : String) :
    (s.tasks.find? (fun t => decide (t.id = taskId)) = none →
      remove s taskId = (false, s)) ∧
    (∀ t, s.tasks.find? (fun t => decide (t.id = taskId)) = some t →
      t.status = TaskStatus.processing → remove s taskId = (false, s)) ∧
    (∀ t, s.tasks.find? (fun t => decide (t.id = taskId)) = some t →
      t.status ≠ TaskStatus.processing →
      (remove s taskId).1 = true ∧
      ∃ l1 l2, s.tasks = l1 ++ t :: l2 ∧ (∀ x ∈ l1, x.id ≠ taskId) ∧
        t.id = taskId ∧ (remove s taskId).2.tasks = l1 ++ l2) := by
  refine ⟨?_, ?_, ?_⟩
  · intro hf
    unfold remove
    rw [hf]
  · intro t hf hp
    unfold remove
    rw [hf]
    dsimp only
    rw [if_pos hp]
  · intro t hf hp
    obtain ⟨l1, l2, hl, hnone, hpt, _, hera⟩ := find?_decomp _ _ _ hf
    refine ⟨?_, l1, l2, hl, ?_, ?_, ?_⟩
    · unfold remove
      rw [hf]
      dsimp only
      rw [if_neg hp]
    · intro x hx
      simpa using hnone x hx
    · simpa using hpt
    · unfold remove
      rw [hf]
      dsimp only
      rw [if_neg hp]
      dsimp only
      rw [hera]

/-- C7 witness: removing the PROCESSING task "p1" is refused, removing the
FAILED task "f1" succeeds and splices exactly it out. -/
theorem c7_remove_spec_witness :
    remove exMixedState "p1" = (false, exMixedState) ∧
    ((remove exMixedState "f1").1 = true ∧
      ∃ l1 l2, exMixedState.tasks = l1 ++ exFailedTask :: l2 ∧
        (∀ x ∈ l1, x.id ≠ "f1") ∧ exFailedTask.id = "f1" ∧
        (remove exMixedState "f1").2.tasks = l1 ++ l2) :=
  ⟨(c7_remove_spec exMixedState "p1").2.1 exProcTask (by decide) rfl,
   (c7_remove_spec exMixedState "f1").2.2 exFailedTask (by decide) (by decide)⟩

/-- C8: counterexample — constructing with concurrency -1 does not raise:
the constructor returns a queue state carrying the malformed value, and
that instance still accepts tasks, so it is a produced (if inert) queue
rather than a constructor-time fatal error. -/
theorem c8_negative_concurrency_accepted :
    construct Nat c8input = Except.ok c8state ∧
    c8state.config.concurrency = -1 ∧
    (add c8state 0 {} 0 "x").2.tasks.length = 1 :=
  ⟨rfl, by decide, by decide⟩

/-- C8 (amended): the constructor performs no configuration validation and
never signals an error — for every input, including negative concurrency,
it returns the merged-config queue state; a queue with nonpositive
concurrency is merely inert: its dispatch step never starts a task. -/
theorem c8_constructor_never_throws :
    (∀ (α : Type) (input : QueueConfigInput),
      construct α input = Except.ok (initState α (mergeConfig input))) ∧
    (∀ (α : Type) (s : QueueState α), Reachable α s →
      s.config.concurrency ≤ 0 → ∀ now, dispatchStep s now = s) := by
  refine ⟨fun α input => rfl, fun α s h hc now => ?_⟩
  obtain ⟨⟨hcount, _⟩, _, _⟩ := reachable_inv h
  unfold dispatchStep
  have hlt : ¬ (s.processingCount < s.config.concurrency) := by omega
  simp [hlt]

/-- C8 amended witness: the negative-concurrency queue is inert. -/
theorem c8_constructor_never_throws_witness :
    dispatchStep c8state 0 = c8state :=
  c8_constructor_never_throws.2 Nat c8state (Reachable.init c8input) (by decide) 0

/-- C9: counterexample — in the reachable state holding equal-priority
tasks "A" (created at 0, eligible only from 100) and "B" (created at 1,
eligible from 1), the dispatch lookup at time 150 selects "A", the task
with the earlier createdAt, even though "B"'s eligibility moment (1)
precedes "A"'s (100): selection is not FIFO in eligibility moments. -/
theorem c9_not_eligibility_fifo_counterexample :
    Reachable Nat c9state ∧
    getNextTask c9state 150 = some c9taskA ∧
    c9taskB ∈ c9state.tasks ∧
    isEligible 150 c9taskB = true ∧
    c9taskA.priority = c9taskB.priority ∧
    eligibleSince c9taskB < eligibleSince c9taskA := by
  refine ⟨?_, by decide, by decide, by decide, by decide, by decide⟩
  exact Reachable.add 0 { id := some "B" } 1 "gB"
    (Reachable.add 0 { delay := some 100, id := some "A" } 0 "gA"
      (Reachable.init {}))

/-- C9 (amended): among the eligible PENDING tasks of equal priority, the
dispatch lookup of a reachable state selects one with the least createdAt
— FIFO in creation order — regardless of the moment each task's
eligibility became satisfied. -/
theorem c9_dispatch_fifo_by_createdAt {α : Type} {s : QueueState α}
    (h : Reachable α s) (now : Int) (t : Task α)
    (hfind : getNextTask s now = some t) :
    ∀ u ∈ s.tasks, isEligible now u = true → u.priority = t.priority →
      t.createdAt ≤ u.createdAt := by
  have hs := (reachable_inv h).2.1
  unfold getNextTask at hfind
  obtain ⟨l1, l2, hl, hnone, hpt, _, _⟩ := find?_decomp _ _ _ hfind
  intro u hu helig hprio
  rw [hl] at hs hu
  rcases List.mem_append.mp hu with h1 | h1
  · rw [hnone u h1] at helig
    simp at helig
  · rcases List.mem_cons.mp h1 with rfl | h2
    · exact le_refl _
    · rcases List.pairwise_append.mp hs with ⟨_, h4, _⟩
      have h5 := (List.pairwise_cons.mp h4).1 u h2
      rcases (taskLE_iff t u).mp h5 with h6 | h6
      · omega
      · exact h6.2

/-- C9 amended witness: at time 150 the selected task "A" has the least
createdAt among the equal-priority eligible tasks, in particular no more
than "B"'s. -/
theorem c9_dispatch_fifo_witness : c9taskA.createdAt ≤ c9taskB.createdAt :=
  c9_dispatch_fifo_by_createdAt
    (Reachable.add 0 { id := some "B" } 1 "gB"
      (Reachable.add 0 { delay := some 100, id := some "A" } 0 "gA"
        (Reachable.init {})))
    150 c9taskA (by decide) c9taskB (by decide) (by decide) (by decide)

/-- C10: the manual-retry reset mutates only status, retryCount, error and
updatedAt — id, data, priority, createdAt, delay and in particular
processAt are untouched; every task in a post-retry/retryAll state is
either an original task or the reset of an original FAILED task; a task
whose (therefore preserved) processAt is a nonzero future instant is not
eligible; and the dispatch lookup only ever returns eligible tasks — so a
manually retried task with a future processAt stays undispatched until
that time passes. -/
theorem c10_retry_keeps_processAt :
    (∀ (α : Type) (now : Int) (t : Task α),
      (retryResetTask now t).id = t.id ∧
      (retryResetTask now t).data = t.data ∧
      (retryResetTask now t).priority = t.priority ∧
      (retryResetTask now t).createdAt = t.createdAt ∧
      (retryResetTask now t).delay = t.delay ∧
      (retryResetTask now t).processAt = t.processAt) ∧
    (∀ (α : Type) (s : QueueState α) (taskId : String) (now : Int) (x : Task α),
      x ∈ (retry s taskId now).2.tasks →
      x ∈ s.tasks ∨ ∃ t, t ∈ s.tasks ∧ t.status = TaskStatus.failed ∧
        x = retryResetTask now t) ∧
    (∀ (α : Type) (s : QueueState α) (now : Int) (x : Task α),
      x ∈ (retryAll s now).2.tasks →
      x ∈ s.tasks ∨ ∃ t, t ∈ s.tasks ∧ t.status = TaskStatus.failed ∧
        x = retryResetTask now t) ∧
    (∀ (α : Type) (now : Int) (t : Task α) (p : Int),
      t.processAt = some p → p ≠ 0 → now < p → isEligible now t = false) ∧
    (∀ (α : Type) (s : QueueState α) (now : Int) (t : Task α),
      getNextTask s now = some t → isEligible now t = true) := by
  refine ⟨fun α now t => ⟨rfl, rfl, rfl, rfl, rfl, rfl⟩, ?_, ?_, ?_, ?_⟩
  · intro α s taskId now x hx
    unfold retry at hx
    cases hfind : s.tasks.find? (fun t => decide (t.id = taskId)) with
    | none =>
      rw [hfind] at hx
      exact Or.inl hx
    | some t =>
      rw [hfind] at hx
      dsimp only at hx
      by_cases hst : t.status = TaskStatus.failed
      · rw [if_pos hst] at hx
        dsimp only at hx
        obtain ⟨l1, l2, hl, _, _, hupd, _⟩ := find?_decomp _ _ _ hfind
        rw [hupd _] at hx
        rcases List.mem_append.mp (mem_sortTasksByPriority.mp hx) with h1 | h1
        · exact Or.inl (by rw [hl]; exact List.mem_append.mpr (Or.inl h1))
        · rcases List.mem_cons.mp h1 with rfl | h2
          · exact Or.inr ⟨t, List.mem_of_find?_eq_some hfind, hst, rfl⟩
          · exact Or.inl (by
              rw [hl]
              exact List.mem_append.mpr (Or.inr (List.mem_cons_of_mem t h2)))
      · rw [if_neg hst] at hx
        exact Or.inl hx
  · intro α s now x hx
    simp only [retryAll] at hx
    by_cases hn : (s.tasks.filter (fun t => decide (t.status = TaskStatus.failed))).length = 0
    · rw [if_pos hn] at hx
      exact Or.inl hx
    · rw [if_neg hn] at hx
      dsimp only at hx
      obtain ⟨y, hy, hyx⟩ := List.mem_map.mp (mem_sortTasksByPriority.mp hx)
      by_cases hf : y.status = TaskStatus.failed
      · rw [if_pos hf] at hyx
        exact Or.inr ⟨y, hy, hf, hyx.symm⟩
      · rw [if_neg hf] at hyx
        subst hyx
        exact Or.inl hy
  · intro α now t p hp hne hlt
    unfold isEligible
    rw [hp]
    simp [hne, hlt]
  · intro α s now t hfind
    exact List.find?_some hfind

/-- C10 witness: resetting the stored FAILED task keeps its future
processAt 500, and at time 450 the reset task is still not eligible. -/
theorem c10_retry_keeps_processAt_witness :
    (retryResetTask 100 exFailedTask).processAt = exFailedTask.processAt ∧
    isEligible 450 (retryResetTask 100 exFailedTask) = false :=
  ⟨(c10_retry_keeps_processAt.1 Nat 100 exFailedTask).2.2.2.2.2,
   c10_retry_keeps_processAt.2.2.2.1 Nat 450 (retryResetTask 100 exFailedTask) 500
     (by decide) (by decide) (by decide)⟩

end ReliableQueue
